import Mathlib

/-!
Shallow embedding of the `cryptik` OTP library (Go): the expiring cache
(`pkg/cache`) and the OTP service (`cryptik.go`).

Modelling conventions:
* Go's ambient clock `time.Now().Unix()` becomes an explicit parameter
  `now : Int` (Unix seconds, Go int64).
* The cache's backing map `map[string]CacheEntry` becomes a function
  `String → Option CacheEntry`; every method on `*CacheInstance` is translated
  in state-passing style, returning its Go results together with the map after
  the call.
* Go's `any` values become `GoValue` (nil, a string, or some other non-string
  value); the unchecked type assertion `cachedOTP.(string)` becomes
  `goTypeAssertString`, whose `none` result marks a Go panic, which makes
  `ValidateOTP` return `Option _` (`none` = panic).
* `crypto/rand.Int(rand.Reader, diff)` is modelled by passing the drawn
  integer `n` (guaranteed by Go to satisfy `0 ≤ n < diff`) as a parameter;
  the claims under study all condition on a successful draw.
* Go's `int64` arithmetic in `GenerateOTP` (`min *= 10`, `max := min*10 - 1`,
  `result := n.Int64() + min`) wraps in two's complement; each such operation
  is wrapped in `wrap64`, which reduces into `[-2^63, 2^63)`.
* Go's `len` on strings counts UTF-8 bytes: `goLen`.
* `fmt.Sprintf("%0*d", width, v)` becomes `goFormatInt`.
-/

/-- The value space of Go's `any` as it is used by this library:
`nil`, a `string`, or any other (non-nil, non-string) value. -/
inductive GoValue where
  | goNil : GoValue
  | goString (s : String) : GoValue
  | goOther : GoValue
deriving DecidableEq, Repr

/-- Go's unchecked type assertion `v.(string)`: yields the string, or `none`
when the assertion would panic (non-string value). `nil` also panics, but the
source only asserts after a `== nil` guard. -/
def goTypeAssertString : GoValue → Option String
  | GoValue.goString s => some s
  | _ => none

/-- UTF-8 byte size of one character, as Go encodes strings. -/
def charUtf8Size (c : Char) : Nat :=
  if c.toNat < 0x80 then 1
  else if c.toNat < 0x800 then 2
  else if c.toNat < 0x10000 then 3
  else 4

/-- Go's `len` on a string: number of UTF-8 bytes. -/
def goLen (s : String) : Nat :=
  s.data.foldl (fun a c => a + charUtf8Size c) 0

/-- The digit character `'0' + n` (Go's `fmt` emits decimal digits this way). -/
def natToDigitChar (n : Nat) : Char := Char.ofNat (48 + n)

/-- Decimal digit characters of `n`, most significant first, by structural
recursion on a fuel bound (any `fuel > n` suffices, since the recursion
divides `n` by 10 while consuming one unit of fuel). -/
def natDigitsAux : Nat → Nat → List Char
  | 0, _ => []
  | fuel + 1, n =>
    if n < 10 then [natToDigitChar n]
    else natDigitsAux fuel (n / 10) ++ [natToDigitChar (n % 10)]

/-- Decimal digit characters of `n`, most significant first. -/
def natDigits (n : Nat) : List Char := natDigitsAux (n + 1) n

/-- Left-pad a character list with `'0'` up to `width` (no truncation),
as Go's `%0*d` pads its digit string. -/
def padZeros (width : Nat) (l : List Char) : List Char :=
  List.replicate (width - l.length) '0' ++ l

/-- Model of Go's `fmt.Sprintf("%0*d", width, v)`: decimal rendering of `v`
zero-padded to `width` (a leading minus sign counts toward the width). -/
def goFormatInt (width : Nat) (v : Int) : String :=
  if v < 0 then String.mk ('-' :: padZeros (width - 1) (natDigits v.natAbs))
  else String.mk (padZeros width (natDigits v.toNat))

/-- Numeric value of a decimal digit string (each char contributing
`c.toNat - 48`), used to state what string `goFormatInt` denotes. -/
def decValueAux (a : Nat) (l : List Char) : Nat :=
  l.foldl (fun a c => 10 * a + (c.toNat - 48)) a

/-- Numeric value of a decimal string. -/
def decValue (s : String) : Nat := decValueAux 0 s.data

/-- `CacheEntry` from `pkg/cache`: stored data plus absolute expiry
(Unix-seconds timestamp). -/
structure CacheEntry where
  Data : GoValue
  Expiry : Int
deriving DecidableEq, Repr

/-- `CacheEntry.IsExpired`: `return c.Expiry < time.Now().Unix()` with the
clock passed explicitly. Note the strict inequality. -/
def CacheEntry.IsExpired (c : CacheEntry) (now : Int) : Bool :=
  decide (c.Expiry < now)

/-- The backing storage of `CacheInstance`: `map[string]CacheEntry`. -/
def CacheMap : Type := String → Option CacheEntry

/-- `CacheInstance.Get`: `(value, found)` plus the (unchanged) map after the
call. Misses and lazily-expired entries yield `(nil, false)`. -/
def CacheInstance.Get (m : CacheMap) (now : Int) (key : String) :
    (GoValue × Bool) × CacheMap :=
  match m key with
  | none => ((GoValue.goNil, false), m)
  | some entry =>
    if entry.IsExpired now then ((GoValue.goNil, false), m)
    else ((entry.Data, true), m)

/-- `CacheInstance.Set`: rejects the empty key with
`errors.New("key cannot be empty")`, otherwise stores
`CacheEntry{Data: value, Expiry: expiration}` under `key`. -/
def CacheInstance.Set (m : CacheMap) (key : String) (value : GoValue)
    (expiration : Int) : Except String Unit × CacheMap :=
  if key = "" then (Except.error "key cannot be empty", m)
  else (Except.ok (),
    fun k => if k = key then some ⟨value, expiration⟩ else m k)

/-- `CacheInstance.Delete`: removes `key` from the map (no-op when absent). -/
def CacheInstance.Delete (m : CacheMap) (key : String) : CacheMap :=
  fun k => if k = key then none else m k

/-- `CacheInstance.Exists`: `found && !entry.IsExpired()`, plus the
(unchanged) map after the call. -/
def CacheInstance.Exists (m : CacheMap) (now : Int) (key : String) :
    Bool × CacheMap :=
  match m key with
  | none => (false, m)
  | some entry => (!entry.IsExpired now, m)

/-- `CacheInstance.Clear`: replaces the map with a fresh empty one. -/
def CacheInstance.Clear (_ : CacheMap) : CacheMap := fun _ => none

/-- `CacheInstance.RemoveExpiredEntries`: deletes every entry whose
`IsExpired` is true at the time of the scan. -/
def CacheInstance.RemoveExpiredEntries (m : CacheMap) (now : Int) : CacheMap :=
  fun k =>
    match m k with
    | none => none
    | some entry => if entry.IsExpired now then none else some entry

/-- The OTP service (`otpServiceInstance`): its cache dependency is the
`CacheInstance` cache, threaded explicitly, so only the configured digit
length remains as a field (Go `int`). -/
structure otpServiceInstance where
  Length : Int
deriving DecidableEq, Repr

/-- Two's-complement wraparound of a Go `int64` operation: reduces an
unbounded result into `[-2^63, 2^63)` (the literals are `2^63` and `2^64`). -/
def wrap64 (x : Int) : Int :=
  (x + 9223372036854775808) % 18446744073709551616 - 9223372036854775808

/-- The `min` loop of `GenerateOTP`:
`min := 1; for i := 1; i < Length; i++ { min *= 10 }`, with `k` the number of
iterations, `(Length - 1).toNat`; each `int64` multiplication wraps. -/
def genMinLoop : Nat → Int
  | 0 => 1
  | k + 1 => wrap64 (genMinLoop k * 10)

/-- `min` as computed by `GenerateOTP` for configured length `L`. -/
def genMin (L : Int) : Int := genMinLoop (L - 1).toNat

/-- `max := min*10 - 1` as computed by `GenerateOTP` (each `int64` operation
wraps; at `L = 19` the multiplication overflows and `max` is negative). -/
def genMax (L : Int) : Int := wrap64 (wrap64 (genMin L * 10) - 1)

/-- `diff := max - min + 1`, the (exact) `big.Int` bound handed to
`crypto/rand.Int`, computed from `max` and `min` in wrapping `int64`
arithmetic. `rand.Int` draws uniformly from `[0, diff)` and panics when
`diff ≤ 0` (which happens at `L ≥ 20`). -/
def genDiff (L : Int) : Int := wrap64 (wrap64 (genMax L - genMin L) + 1)

/-- `otpServiceInstance.GenerateOTP` on a successful random draw `n`
(Go guarantees `0 ≤ n < diff`): computes `result := n.Int64() + min` in
wrapping `int64` arithmetic, formats it as
`fmt.Sprintf("%0*d", o.Length, result)`, stores that string under `key` with
expiry `time.Now().Add(10*time.Minute).Unix() = now + 600`, and returns a
second, identical formatting of `result`. -/
def otpServiceInstance.GenerateOTP (o : otpServiceInstance) (m : CacheMap)
    (now : Int) (n : Int) (key : String) : Except String String × CacheMap :=
  let result := wrap64 (n + genMin o.Length)
  let otp := goFormatInt o.Length.toNat result
  match CacheInstance.Set m key (GoValue.goString otp) (now + 600) with
  | (Except.error e, m₁) =>
    (Except.error ("failed to store OTP in cache: " ++ e), m₁)
  | (Except.ok _, m₁) =>
    (Except.ok (goFormatInt o.Length.toNat result), m₁)

/-- The three error values `ValidateOTP` can return: `ErrInvalidOTP`,
`fmt.Errorf("OTP not found in cache for secret: %s", key)` and
`fmt.Errorf("OTP does not match for secret: %s", key)`. -/
inductive ValidateError where
  | errInvalidOTP : ValidateError
  | notFound (key : String) : ValidateError
  | mismatch (key : String) : ValidateError
deriving DecidableEq, Repr

/-- `otpServiceInstance.ValidateOTP`: format check, cache `Get`, `nil` guard,
unchecked `cachedOTP.(string)` assertion (a `none` result is a Go panic),
string comparison, and `Delete` on success. Returns Go's `(bool, error)` pair
plus the map after the call. -/
def otpServiceInstance.ValidateOTP (o : otpServiceInstance) (m : CacheMap)
    (now : Int) (key otp : String) :
    Option ((Bool × Option ValidateError) × CacheMap) :=
  if otp = "" ∨ (goLen otp : Int) ≠ o.Length then
    some ((false, some ValidateError.errInvalidOTP), m)
  else
    match CacheInstance.Get m now key with
    | ((cachedOTP, found), m₁) =>
      if !found then some ((false, some (ValidateError.notFound key)), m₁)
      else if cachedOTP = GoValue.goNil then
        some ((false, some (ValidateError.mismatch key)), m₁)
      else
        match goTypeAssertString cachedOTP with
        | none => none
        | some s =>
          if s ≠ otp then
            some ((false, some (ValidateError.mismatch key)), m₁)
          else some ((true, none), CacheInstance.Delete m₁ key)

/-- Precondition for claim C10: every value stored in the cache is a Go
string (true whenever only `GenerateOTP` writes to it). -/
def CacheWellTyped (m : CacheMap) : Prop :=
  ∀ k e, m k = some e → ∃ s, e.Data = GoValue.goString s

/-! ### Lemmas about the decimal formatter -/

theorem natToDigitChar_isDigit : ∀ d < 10, (natToDigitChar d).isDigit := by decide

theorem natToDigitChar_size : ∀ d < 10, charUtf8Size (natToDigitChar d) = 1 := by
  decide

theorem natToDigitChar_toNat : ∀ d < 10, (natToDigitChar d).toNat = 48 + d := by
  decide

theorem natDigitsAux_fuel (f₁ : Nat) :
    ∀ f₂ n, n < f₁ → n < f₂ → natDigitsAux f₁ n = natDigitsAux f₂ n := by
  induction f₁ with
  | zero =>
    intro f₂ n h1 h2
    omega
  | succ f₁ ih =>
    intro f₂ n h1 h2
    cases f₂ with
    | zero => omega
    | succ f₂ =>
      show (if n < 10 then [natToDigitChar n]
          else natDigitsAux f₁ (n / 10) ++ [natToDigitChar (n % 10)])
        = if n < 10 then [natToDigitChar n]
          else natDigitsAux f₂ (n / 10) ++ [natToDigitChar (n % 10)]
      split
      · rfl
      · congr 1
        exact ih f₂ (n / 10) (by omega) (by omega)

/-- `natDigits` satisfies the single-step recurrence of the digit loop. -/
theorem natDigits_step (n : Nat) :
    natDigits n = if n < 10 then [natToDigitChar n]
      else natDigits (n / 10) ++ [natToDigitChar (n % 10)] := by
  show (if n < 10 then [natToDigitChar n]
      else natDigitsAux n (n / 10) ++ [natToDigitChar (n % 10)])
    = if n < 10 then [natToDigitChar n]
      else natDigits (n / 10) ++ [natToDigitChar (n % 10)]
  split
  · rfl
  · congr 1
    exact natDigitsAux_fuel n (n / 10 + 1) (n / 10) (by omega) (by omega)

theorem natDigits_shape (n : Nat) :
    ∀ c ∈ natDigits n, ∃ d, d < 10 ∧ c = natToDigitChar d := by
  induction n using Nat.strong_induction_on with
  | _ n ih =>
    rw [natDigits_step]
    split
    · intro c hc
      simp only [List.mem_singleton] at hc
      exact ⟨n, by omega, hc⟩
    · intro c hc
      rcases List.mem_append.mp hc with h | h
      · exact ih (n / 10) (Nat.div_lt_self (by omega) (by omega)) c h
      · simp only [List.mem_singleton] at h
        exact ⟨n % 10, Nat.mod_lt _ (by omega), h⟩

theorem natDigits_length_pos (n : Nat) : 1 ≤ (natDigits n).length := by
  rw [natDigits_step]
  split <;> simp

theorem natDigits_length_le (k : Nat) :
    ∀ n, 1 ≤ k → n < 10 ^ k → (natDigits n).length ≤ k := by
  induction k with
  | zero => omega
  | succ k ih =>
    intro n _ hn
    rw [natDigits_step]
    split
    · simp
    · rename_i h10
      have hk : 1 ≤ k := by
        by_contra hk0
        have : k = 0 := by omega
        subst this
        simp at hn
        omega
      have hdiv : n / 10 < 10 ^ k := by
        rw [Nat.div_lt_iff_lt_mul (by omega)]
        calc n < 10 ^ (k + 1) := hn
        _ = 10 ^ k * 10 := by rw [pow_succ]
      have := ih (n / 10) hk hdiv
      simp only [List.length_append, List.length_singleton]
      omega

theorem padZeros_length (w : Nat) (l : List Char) (h : l.length ≤ w) :
    (padZeros w l).length = w := by
  simp [padZeros]
  omega

theorem padZeros_shape (w : Nat) (l : List Char) (P : Char → Prop)
    (hl : ∀ c ∈ l, P c) (h0 : P '0') : ∀ c ∈ padZeros w l, P c := by
  intro c hc
  rcases List.mem_append.mp hc with h | h
  · rw [List.eq_of_mem_replicate h]
    exact h0
  · exact hl c h

theorem decValueAux_append (a : Nat) (l₁ l₂ : List Char) :
    decValueAux a (l₁ ++ l₂) = decValueAux (decValueAux a l₁) l₂ :=
  List.foldl_append _ _ _ _

theorem decValueAux_replicate_zero (m : Nat) :
    decValueAux 0 (List.replicate m '0') = 0 := by
  induction m with
  | zero => rfl
  | succ m ih =>
    rw [List.replicate_succ]
    show decValueAux (10 * 0 + ('0'.toNat - 48)) (List.replicate m '0') = 0
    simpa using ih

theorem decValueAux_natDigits (n : Nat) :
    ∀ a, decValueAux a (natDigits n) = a * 10 ^ (natDigits n).length + n := by
  induction n using Nat.strong_induction_on with
  | _ n ih =>
    intro a
    rw [natDigits_step]
    split
    · rename_i h10
      show 10 * a + ((natToDigitChar n).toNat - 48)
        = a * 10 ^ ([natToDigitChar n].length) + n
      rw [natToDigitChar_toNat n h10]
      simp only [List.length_singleton, pow_one]
      omega
    · rename_i h10
      rw [decValueAux_append]
      have hlt : n / 10 < n := Nat.div_lt_self (by omega) (by omega)
      rw [ih (n / 10) hlt a]
      show 10 * (a * 10 ^ (natDigits (n / 10)).length + n / 10)
          + ((natToDigitChar (n % 10)).toNat - 48)
        = a * 10 ^ (natDigits (n / 10) ++ [natToDigitChar (n % 10)]).length + n
      rw [natToDigitChar_toNat (n % 10) (Nat.mod_lt _ (by omega))]
      simp only [List.length_append, List.length_singleton]
      rw [pow_succ]
      have h1 : a * (10 ^ (natDigits (n / 10)).length * 10)
          = 10 * (a * 10 ^ (natDigits (n / 10)).length) := by ring
      rw [h1]
      omega

theorem goLen_mk_ones (l : List Char) (h : ∀ c ∈ l, charUtf8Size c = 1) :
    goLen (String.mk l) = l.length := by
  show l.foldl (fun a c => a + charUtf8Size c) 0 = l.length
  have key : ∀ a, l.foldl (fun a c => a + charUtf8Size c) a = a + l.length := by
    induction l with
    | nil => simp
    | cons c cs ih =>
      intro a
      rw [List.foldl_cons]
      rw [h c (List.mem_cons_self c cs)]
      rw [ih (fun c hc => h c (List.mem_cons_of_mem _ hc)) (a + 1)]
      simp
      omega
  simpa using key 0

theorem wrap64_eq_self (x : Int) (h1 : -9223372036854775808 ≤ x)
    (h2 : x < 9223372036854775808) : wrap64 x = x := by
  unfold wrap64
  rw [Int.emod_eq_of_lt (by omega) (by omega)]
  omega

/-- Below 19 digits the `min` loop never wraps, so it computes `10^k`. -/
theorem genMinLoop_eq (k : Nat) (hk : k ≤ 17) :
    genMinLoop k = ((10 ^ k : Nat) : Int) := by
  induction k with
  | zero => rfl
  | succ k ih =>
    show wrap64 (genMinLoop k * 10) = ((10 ^ (k + 1) : Nat) : Int)
    rw [ih (by omega)]
    have hcast : ((10 ^ k : Nat) : Int) * 10 = ((10 ^ (k + 1) : Nat) : Int) := by
      push_cast
      ring
    rw [hcast]
    obtain ⟨M, hM⟩ : ∃ M, (10 : Nat) ^ (k + 1) = M := ⟨_, rfl⟩
    have hb : M ≤ 1000000000000000000 := by
      rw [← hM]
      calc (10 : Nat) ^ (k + 1) ≤ 10 ^ 18 :=
            Nat.pow_le_pow_right (by omega) (by omega)
        _ = 1000000000000000000 := by norm_num
    rw [hM]
    exact wrap64_eq_self _ (by omega) (by omega)

theorem genMin_eq (L : Int) (hL : 1 ≤ L) (h18 : L ≤ 18) :
    genMin L = ((10 ^ (L - 1).toNat : Nat) : Int) := by
  unfold genMin
  exact genMinLoop_eq _ (by omega)

theorem genMax_eq (L : Int) (hL : 1 ≤ L) (h18 : L ≤ 18) :
    genMax L = ((10 ^ L.toNat : Nat) : Int) - 1 := by
  unfold genMax
  rw [genMin_eq L hL h18]
  have hcast : ((10 ^ (L - 1).toNat : Nat) : Int) * 10
      = ((10 ^ L.toNat : Nat) : Int) := by
    have hLL : L.toNat = (L - 1).toNat + 1 := by omega
    rw [hLL]
    push_cast
    ring
  rw [hcast]
  obtain ⟨M, hM⟩ : ∃ M, (10 : Nat) ^ L.toNat = M := ⟨_, rfl⟩
  have hb : M ≤ 1000000000000000000 := by
    rw [← hM]
    calc (10 : Nat) ^ L.toNat ≤ 10 ^ 18 :=
          Nat.pow_le_pow_right (by omega) (by omega)
      _ = 1000000000000000000 := by norm_num
  have hpos : 1 ≤ M := by
    rw [← hM]
    exact Nat.one_le_pow _ _ (by omega)
  rw [hM]
  rw [wrap64_eq_self ((M : Nat) : Int) (by omega) (by omega)]
  exact wrap64_eq_self _ (by omega) (by omega)

theorem genDiff_eq (L : Int) (hL : 1 ≤ L) (h18 : L ≤ 18) :
    genDiff L = ((9 * 10 ^ (L - 1).toNat : Nat) : Int) := by
  unfold genDiff
  rw [genMax_eq L hL h18, genMin_eq L hL h18]
  obtain ⟨M, hM⟩ : ∃ M, (10 : Nat) ^ (L - 1).toNat = M := ⟨_, rfl⟩
  have hb : M ≤ 100000000000000000 := by
    rw [← hM]
    calc (10 : Nat) ^ (L - 1).toNat ≤ 10 ^ 17 :=
          Nat.pow_le_pow_right (by omega) (by omega)
      _ = 100000000000000000 := by norm_num
  have hpos : 1 ≤ M := by
    rw [← hM]
    exact Nat.one_le_pow _ _ (by omega)
  have hsplit : (10 : Nat) ^ L.toNat = M * 10 := by
    rw [show L.toNat = (L - 1).toNat + 1 from by omega, pow_succ, hM]
  rw [hM, hsplit]
  have h1 : ((M * 10 : Nat) : Int) - 1 - ((M : Nat) : Int)
      = ((9 * M : Nat) : Int) - 1 := by
    push_cast
    ring
  rw [h1]
  rw [wrap64_eq_self (((9 * M : Nat) : Int) - 1) (by omega) (by omega)]
  have h2 : ((9 * M : Nat) : Int) - 1 + 1 = ((9 * M : Nat) : Int) := by ring
  rw [h2]
  exact wrap64_eq_self _ (by omega) (by omega)

/-! ### Helper lemmas about the cache operations -/

theorem CacheInstance.Set_ok (m : CacheMap) (key : String) (v : GoValue)
    (e : Int) (hk : key ≠ "") :
    CacheInstance.Set m key v e
      = (Except.ok (), fun k => if k = key then some ⟨v, e⟩ else m k) := by
  unfold CacheInstance.Set
  rw [if_neg hk]

theorem CacheInstance.Get_found (m : CacheMap) (now : Int) (key : String)
    (e : CacheEntry) (hm : m key = some e) (hlive : ¬ e.Expiry < now) :
    CacheInstance.Get m now key = ((e.Data, true), m) := by
  unfold CacheInstance.Get
  rw [hm]
  simp [CacheEntry.IsExpired, hlive]

theorem CacheInstance.Get_missing (m : CacheMap) (now : Int) (key : String)
    (hm : m key = none) :
    CacheInstance.Get m now key = ((GoValue.goNil, false), m) := by
  unfold CacheInstance.Get
  rw [hm]

theorem CacheInstance.Get_expired (m : CacheMap) (now : Int) (key : String)
    (e : CacheEntry) (hm : m key = some e) (hexp : e.Expiry < now) :
    CacheInstance.Get m now key = ((GoValue.goNil, false), m) := by
  unfold CacheInstance.Get
  rw [hm]
  simp [CacheEntry.IsExpired, hexp]

theorem CacheInstance.Delete_self (m : CacheMap) (key : String) :
    CacheInstance.Delete m key key = none := by
  unfold CacheInstance.Delete
  rw [if_pos rfl]

/-! ### The string produced by `GenerateOTP` -/

theorem generated_otp_props (L n : Int) (hL : 1 ≤ L) (h18 : L ≤ 18)
    (hn : 0 ≤ n) (hd : n < genDiff L) :
    wrap64 (n + genMin L) = n + genMin L ∧
    (goFormatInt L.toNat (wrap64 (n + genMin L))).length = L.toNat ∧
    goFormatInt L.toNat (wrap64 (n + genMin L)) ≠ "" ∧
    (goLen (goFormatInt L.toNat (wrap64 (n + genMin L))) : Int) = L ∧
    (∀ c ∈ (goFormatInt L.toNat (wrap64 (n + genMin L))).data, c.isDigit) ∧
    decValue (goFormatInt L.toNat (wrap64 (n + genMin L)))
      = (n + genMin L).toNat ∧
    10 ^ (L - 1).toNat ≤ (n + genMin L).toNat ∧
    (n + genMin L).toNat ≤ 10 ^ L.toNat - 1 := by
  obtain ⟨M, hM⟩ : ∃ M, (10 : Nat) ^ (L - 1).toNat = M := ⟨_, rfl⟩
  have hMb : M ≤ 100000000000000000 := by
    rw [← hM]
    calc (10 : Nat) ^ (L - 1).toNat ≤ 10 ^ 17 :=
          Nat.pow_le_pow_right (by omega) (by omega)
      _ = 100000000000000000 := by norm_num
  have hMpos : 1 ≤ M := by
    rw [← hM]
    exact Nat.one_le_pow _ _ (by omega)
  have hminL : genMin L = ((M : Nat) : Int) := by
    rw [genMin_eq L hL h18, hM]
  have hdiffL : genDiff L = ((9 * M : Nat) : Int) := by
    rw [genDiff_eq L hL h18, hM]
  have hLL : L.toNat = (L - 1).toNat + 1 := by omega
  have hpow : (10 : Nat) ^ L.toNat = M * 10 := by
    rw [hLL, pow_succ, hM]
  -- bounds on the stored integer (no wraparound below 19 digits)
  have hr_lo : 10 ^ (L - 1).toNat ≤ (n + genMin L).toNat := by
    rw [hM]
    omega
  have hr_hi : (n + genMin L).toNat ≤ 10 ^ L.toNat - 1 := by
    rw [hpow]
    omega
  have hw : wrap64 (n + genMin L) = n + genMin L :=
    wrap64_eq_self _ (by omega) (by omega)
  rw [hw]
  have hr_nonneg : ¬ n + genMin L < 0 := by omega
  have hfmt : goFormatInt L.toNat (n + genMin L)
      = String.mk (padZeros L.toNat (natDigits (n + genMin L).toNat)) := by
    unfold goFormatInt
    rw [if_neg hr_nonneg]
  have hdiglen : (natDigits (n + genMin L).toNat).length ≤ L.toNat := by
    apply natDigits_length_le L.toNat _ (by omega)
    rw [hpow]
    omega
  have hlen : (goFormatInt L.toNat (n + genMin L)).length = L.toNat := by
    rw [hfmt]
    show (padZeros L.toNat (natDigits (n + genMin L).toNat)).length = L.toNat
    exact padZeros_length _ _ hdiglen
  have hshape : ∀ c ∈ padZeros L.toNat (natDigits (n + genMin L).toNat),
      ∃ d, d < 10 ∧ c = natToDigitChar d := by
    apply padZeros_shape
    · exact natDigits_shape _
    · exact ⟨0, by omega, by decide⟩
  refine ⟨rfl, hlen, ?_, ?_, ?_, ?_, hr_lo, hr_hi⟩
  · intro hempty
    have := congrArg String.length hempty
    rw [hlen] at this
    simp at this
    omega
  · rw [hfmt]
    have hones : ∀ c ∈ padZeros L.toNat (natDigits (n + genMin L).toNat),
        charUtf8Size c = 1 := by
      intro c hc
      obtain ⟨d, hd, rfl⟩ := hshape c hc
      exact natToDigitChar_size d hd
    rw [goLen_mk_ones _ hones]
    rw [padZeros_length _ _ hdiglen]
    omega
  · rw [hfmt]
    intro c hc
    obtain ⟨d, hd, rfl⟩ := hshape c hc
    exact natToDigitChar_isDigit d hd
  · rw [hfmt]
    show decValueAux 0 (padZeros L.toNat (natDigits (n + genMin L).toNat))
      = (n + genMin L).toNat
    unfold padZeros
    rw [decValueAux_append, decValueAux_replicate_zero, decValueAux_natDigits]
    simp

theorem otpServiceInstance.GenerateOTP_ok (L now n : Int) (key : String)
    (m : CacheMap) (hk : key ≠ "") :
    otpServiceInstance.GenerateOTP ⟨L⟩ m now n key
      = (Except.ok (goFormatInt L.toNat (wrap64 (n + genMin L))),
         fun k => if k = key then
             some ⟨GoValue.goString (goFormatInt L.toNat (wrap64 (n + genMin L))),
                   now + 600⟩
           else m k) := by
  unfold otpServiceInstance.GenerateOTP
  simp only [CacheInstance.Set_ok _ _ _ _ hk]

/-! ### Helper lemmas about `ValidateOTP` -/

theorem otpServiceInstance.ValidateOTP_found_string (L now exp : Int)
    (m : CacheMap) (key otp s : String)
    (hne : otp ≠ "") (hlen : (goLen otp : Int) = L)
    (hentry : m key = some ⟨GoValue.goString s, exp⟩) (hlive : ¬ exp < now) :
    otpServiceInstance.ValidateOTP ⟨L⟩ m now key otp =
      if s = otp then
        some ((true, none), CacheInstance.Delete m key)
      else some ((false, some (ValidateError.mismatch key)), m) := by
  have hfmt : ¬ (otp = "" ∨ (goLen otp : Int) ≠ (otpServiceInstance.mk L).Length) := by
    push_neg
    exact ⟨hne, hlen⟩
  unfold otpServiceInstance.ValidateOTP
  rw [if_neg hfmt, CacheInstance.Get_found m now key _ hentry hlive]
  by_cases hso : s = otp
  · subst hso
    simp [goTypeAssertString]
  · simp [goTypeAssertString, hso]

theorem otpServiceInstance.ValidateOTP_missing (L now : Int)
    (m : CacheMap) (key otp : String)
    (hne : otp ≠ "") (hlen : (goLen otp : Int) = L)
    (hm : m key = none) :
    otpServiceInstance.ValidateOTP ⟨L⟩ m now key otp
      = some ((false, some (ValidateError.notFound key)), m) := by
  have hfmt : ¬ (otp = "" ∨ (goLen otp : Int) ≠ (otpServiceInstance.mk L).Length) := by
    push_neg
    exact ⟨hne, hlen⟩
  unfold otpServiceInstance.ValidateOTP
  rw [if_neg hfmt, CacheInstance.Get_missing m now key hm]
  rfl

theorem otpServiceInstance.ValidateOTP_reject_format (L now : Int)
    (m : CacheMap) (key otp : String)
    (h : otp = "" ∨ (goLen otp : Int) ≠ L) :
    otpServiceInstance.ValidateOTP ⟨L⟩ m now key otp
      = some ((false, some ValidateError.errInvalidOTP), m) := by
  unfold otpServiceInstance.ValidateOTP
  split
  · rfl
  · rename_i hcon
    exact absurd h hcon

/-! ### The claims -/

set_option maxRecDepth 10000 in
/-- C1 (counterexample to the claim as stated): at configured length
`L = 19` the `int64` range arithmetic wraps: `diff` computes to
`9 * 10^18 > 0`, so `rand.Int` succeeds, and the valid draw
`n = 2^63 - 10^18 = 8223372036854775808` makes `result := n + min` overflow
to `-2^63`. `GenerateOTP` then returns the 20-character minus-signed string
`"-9223372036854775808"`, and the immediately following `ValidateOTP` on
that returned OTP fails with `ErrInvalidOTP` (length 20 ≠ 19) instead of
returning `(true, nil)`. -/
theorem claim_C1_counterexample :
    (0 : Int) ≤ 8223372036854775808 ∧
    (8223372036854775808 : Int) < genDiff 19 ∧
    (otpServiceInstance.GenerateOTP ⟨19⟩ (fun _ => none) 0
        8223372036854775808 "k").1 = Except.ok "-9223372036854775808" ∧
    otpServiceInstance.ValidateOTP ⟨19⟩
        (otpServiceInstance.GenerateOTP ⟨19⟩ (fun _ => none) 0
          8223372036854775808 "k").2 0 "k" "-9223372036854775808"
      = some ((false, some ValidateError.errInvalidOTP),
          (otpServiceInstance.GenerateOTP ⟨19⟩ (fun _ => none) 0
            8223372036854775808 "k").2) := by
  refine ⟨by decide, by decide, ?_, ?_⟩
  · rw [otpServiceInstance.GenerateOTP_ok 19 0 8223372036854775808 "k"
      (fun _ => none) (by decide)]
    exact congrArg Except.ok (by decide)
  · exact otpServiceInstance.ValidateOTP_reject_format 19 0 _ "k"
      "-9223372036854775808" (Or.inr (by decide))

/-- C1 (amended): for every configured length `L` with `1 ≤ L ≤ 18` (so the
`int64` range arithmetic cannot wrap), every non-empty key, and every
successful secure random draw `n` (Go guarantees `0 ≤ n < diff`),
`GenerateOTP key` immediately followed by `ValidateOTP key returnedOtp`
returns `(true, nil)`, and a second `ValidateOTP key sameOtp` returns
`(false, NotFoundError)` because the successful validation deleted the cache
entry (single use). At `L ≥ 19` the original claim fails (see the
counterexample). -/
theorem claim_C1_round_trip (L now n : Int) (key : String) (m : CacheMap)
    (hk : key ≠ "") (hL : 1 ≤ L) (h18 : L ≤ 18) (hn : 0 ≤ n)
    (hd : n < genDiff L) :
    ∃ otp m₁ m₂,
      otpServiceInstance.GenerateOTP ⟨L⟩ m now n key = (Except.ok otp, m₁) ∧
      otpServiceInstance.ValidateOTP ⟨L⟩ m₁ now key otp
        = some ((true, none), m₂) ∧
      otpServiceInstance.ValidateOTP ⟨L⟩ m₂ now key otp
        = some ((false, some (ValidateError.notFound key)), m₂) := by
  obtain ⟨hw, hlen, hne, hglen, hdig, hdec, hlo, hhi⟩ :=
    generated_otp_props L n hL h18 hn hd
  refine ⟨goFormatInt L.toNat (wrap64 (n + genMin L)),
    fun k => if k = key then
        some ⟨GoValue.goString (goFormatInt L.toNat (wrap64 (n + genMin L))),
              now + 600⟩
      else m k,
    CacheInstance.Delete
      (fun k => if k = key then
          some ⟨GoValue.goString (goFormatInt L.toNat (wrap64 (n + genMin L))),
                now + 600⟩
        else m k) key,
    otpServiceInstance.GenerateOTP_ok L now n key m hk, ?_, ?_⟩
  · rw [otpServiceInstance.ValidateOTP_found_string L now (now + 600) _ key _ _
      hne hglen (by rw [if_pos rfl]) (by omega)]
    rw [if_pos rfl]
  · exact otpServiceInstance.ValidateOTP_missing L now _ key _ hne hglen
      (CacheInstance.Delete_self _ key)

/-- Witness for the amended C1 at `L = 2`, `now = 0`, `n = 5`, `key = "k"`,
empty starting cache. -/
theorem claim_C1_round_trip_witness :
    ("k" : String) ≠ "" ∧ (1 : Int) ≤ 2 ∧ (2 : Int) ≤ 18 ∧ (0 : Int) ≤ 5 ∧
    (5 : Int) < genDiff 2 ∧
    (∃ otp m₁ m₂,
      otpServiceInstance.GenerateOTP ⟨2⟩ (fun _ => none) 0 5 "k"
        = (Except.ok otp, m₁) ∧
      otpServiceInstance.ValidateOTP ⟨2⟩ m₁ 0 "k" otp
        = some ((true, none), m₂) ∧
      otpServiceInstance.ValidateOTP ⟨2⟩ m₂ 0 "k" otp
        = some ((false, some (ValidateError.notFound "k")), m₂)) :=
  ⟨by decide, by decide, by decide, by decide, by decide,
    claim_C1_round_trip 2 0 5 "k" (fun _ => none)
      (by decide) (by decide) (by decide) (by decide) (by decide)⟩

/-- C2 (counterexample to the claim as stated): an entry whose stored expiry
equals the current time (`Expiry = now = 100`) is NOT invisible: `Get` still
returns it with `found = true` and `Exists` still returns `true`, because
`IsExpired` uses the strict comparison `Expiry < now`. -/
theorem claim_C2_counterexample :
    (CacheInstance.Get
        (fun k => if k = "k" then some ⟨GoValue.goString "x", 100⟩ else none)
        100 "k").1 = (GoValue.goString "x", true) ∧
    (CacheInstance.Exists
        (fun k => if k = "k" then some ⟨GoValue.goString "x", 100⟩ else none)
        100 "k").1 = true := by
  decide

/-- C2 (amended): for every key present in the cache, `Get` returns not-found
(and `Exists` returns `false`) whenever the entry's expiry instant is
strictly before the current time; an entry whose stored expiry equals the
current time is still visible to both `Get` and `Exists`. -/
theorem claim_C2_lazy_expiry (m : CacheMap) (now : Int) (key : String)
    (e : CacheEntry) (h : m key = some e) :
    (e.Expiry < now →
      (CacheInstance.Get m now key).1 = (GoValue.goNil, false) ∧
      (CacheInstance.Exists m now key).1 = false) ∧
    (now ≤ e.Expiry →
      (CacheInstance.Get m now key).1 = (e.Data, true) ∧
      (CacheInstance.Exists m now key).1 = true) := by
  constructor
  · intro hexp
    constructor
    · rw [CacheInstance.Get_expired m now key e h hexp]
    · unfold CacheInstance.Exists
      rw [h]
      simp [CacheEntry.IsExpired, hexp]
  · intro hexp
    constructor
    · rw [CacheInstance.Get_found m now key e h (by omega)]
    · unfold CacheInstance.Exists
      rw [h]
      simp [CacheEntry.IsExpired]
      omega

/-- Witness for the amended C2 at a cache holding `"k" ↦ ("x", expiry 50)`,
read at `now = 100` (expired) and at `now = 20` (live). -/
theorem claim_C2_lazy_expiry_witness :
    (fun k => if k = "k" then some (⟨GoValue.goString "x", 50⟩ : CacheEntry)
      else none) "k" = some ⟨GoValue.goString "x", 50⟩ ∧
    ((50 : Int) < 100 →
      (CacheInstance.Get
        (fun k => if k = "k" then some ⟨GoValue.goString "x", 50⟩ else none)
        100 "k").1 = (GoValue.goNil, false) ∧
      (CacheInstance.Exists
        (fun k => if k = "k" then some ⟨GoValue.goString "x", 50⟩ else none)
        100 "k").1 = false) :=
  ⟨by decide,
    (claim_C2_lazy_expiry
      (fun k => if k = "k" then some ⟨GoValue.goString "x", 50⟩ else none)
      100 "k" ⟨GoValue.goString "x", 50⟩ (by decide)).1⟩

/-- C3 (counterexample to the claim as stated): an entry whose expiry instant
equals the scan time (`Expiry = now = 100`) is NOT removed by
`RemoveExpiredEntries`, because `IsExpired` uses the strict comparison
`Expiry < now`. -/
theorem claim_C3_counterexample :
    CacheInstance.RemoveExpiredEntries
        (fun k => if k = "k" then some ⟨GoValue.goString "x", 100⟩ else none)
        100 "k"
      = some ⟨GoValue.goString "x", 100⟩ := by
  decide

/-- C3 (amended): `RemoveExpiredEntries` removes from the backing map every
entry whose expiry instant is strictly before the scan time and keeps every
entry whose expiry is at or after the scan time; in particular an entry with
expiry `now - 1` is physically removed. -/
theorem claim_C3_remove_expired (m : CacheMap) (now : Int) (k : String)
    (e : CacheEntry) (h : m k = some e) :
    (CacheInstance.RemoveExpiredEntries m now k = some e ↔ now ≤ e.Expiry) ∧
    (e.Expiry = now - 1 → CacheInstance.RemoveExpiredEntries m now k = none) := by
  have hstep : CacheInstance.RemoveExpiredEntries m now k
      = if e.IsExpired now then none else some e := by
    unfold CacheInstance.RemoveExpiredEntries
    rw [h]
  constructor
  · rw [hstep]
    constructor
    · intro hsome
      by_contra hlt
      rw [if_pos (by simp [CacheEntry.IsExpired]; omega)] at hsome
      exact Option.noConfusion hsome
    · intro hle
      rw [if_neg (by simp [CacheEntry.IsExpired]; omega)]
  · intro hexp
    rw [hstep, if_pos (by simp [CacheEntry.IsExpired]; omega)]

/-- Witness for the amended C3 at a cache holding `"k" ↦ ("x", expiry 99)`,
swept at `now = 100`: the entry (expiry `now - 1`) is removed. -/
theorem claim_C3_remove_expired_witness :
    (fun k => if k = "k" then some (⟨GoValue.goString "x", 99⟩ : CacheEntry)
      else none) "k" = some ⟨GoValue.goString "x", 99⟩ ∧
    ((99 : Int) = 100 - 1 →
      CacheInstance.RemoveExpiredEntries
        (fun k => if k = "k" then some ⟨GoValue.goString "x", 99⟩ else none)
        100 "k" = none) :=
  ⟨by decide,
    (claim_C3_remove_expired
      (fun k => if k = "k" then some ⟨GoValue.goString "x", 99⟩ else none)
      100 "k" ⟨GoValue.goString "x", 99⟩ (by decide)).2⟩

set_option maxRecDepth 10000 in
/-- C4 (counterexample to the claim as stated): at configured length
`L = 19`, the valid draw `n = 2^63 - 10^18` wraps `result` to `-2^63`, and
`GenerateOTP` returns `"-9223372036854775808"`: 20 characters, one of which
(the minus sign) is not a decimal digit — not a string of exactly 19
decimal digits. -/
theorem claim_C4_counterexample :
    (0 : Int) ≤ 8223372036854775808 ∧
    (8223372036854775808 : Int) < genDiff 19 ∧
    (otpServiceInstance.GenerateOTP ⟨19⟩ (fun _ => none) 0
        8223372036854775808 "k").1 = Except.ok "-9223372036854775808" ∧
    ("-9223372036854775808" : String).length = 20 ∧
    ¬ ∀ c ∈ ("-9223372036854775808" : String).data, c.isDigit := by
  refine ⟨by decide, by decide, ?_, by decide, by decide⟩
  rw [otpServiceInstance.GenerateOTP_ok 19 0 8223372036854775808 "k"
    (fun _ => none) (by decide)]
  exact congrArg Except.ok (by decide)

/-- C4 (amended): for every configured length `L` with `1 ≤ L ≤ 18` (so the
`int64` arithmetic cannot wrap), non-empty key, and successful random draw
`n` (with `0 ≤ n < diff` as `crypto/rand.Int` guarantees), `GenerateOTP`
returns a string of exactly `L` decimal digits whose numeric value lies in
`[10^(L-1), 10^L - 1]`; for `L = 1` this range is `[1, 9]` (the minimum
bound is seeded at `1`, so single-digit OTPs never include 0). At `L = 19`
the original claim fails by `int64` wraparound (see the counterexample). -/
theorem claim_C4_otp_format (L now n : Int) (key : String) (m : CacheMap)
    (hk : key ≠ "") (hL : 1 ≤ L) (h18 : L ≤ 18) (hn : 0 ≤ n)
    (hd : n < genDiff L) :
    ∃ otp m₁,
      otpServiceInstance.GenerateOTP ⟨L⟩ m now n key = (Except.ok otp, m₁) ∧
      otp.length = L.toNat ∧
      (∀ c ∈ otp.data, c.isDigit) ∧
      10 ^ (L - 1).toNat ≤ decValue otp ∧
      decValue otp ≤ 10 ^ L.toNat - 1 := by
  obtain ⟨hw, hlen, hne, hglen, hdig, hdec, hlo, hhi⟩ :=
    generated_otp_props L n hL h18 hn hd
  exact ⟨goFormatInt L.toNat (wrap64 (n + genMin L)), _,
    otpServiceInstance.GenerateOTP_ok L now n key m hk,
    hlen, hdig, by rw [hdec]; exact hlo, by rw [hdec]; exact hhi⟩

/-- Witness for the amended C4 at the quirky boundary `L = 1` (draw `n = 0`,
so the OTP is the single digit `1`), key `"k"`, empty starting cache,
`now = 0`. -/
theorem claim_C4_otp_format_witness :
    ("k" : String) ≠ "" ∧ (1 : Int) ≤ 1 ∧ (1 : Int) ≤ 18 ∧ (0 : Int) ≤ 0 ∧
    (0 : Int) < genDiff 1 ∧
    (∃ otp m₁,
      otpServiceInstance.GenerateOTP ⟨1⟩ (fun _ => none) 0 0 "k"
        = (Except.ok otp, m₁) ∧
      otp.length = (1 : Int).toNat ∧
      (∀ c ∈ otp.data, c.isDigit) ∧
      10 ^ ((1 : Int) - 1).toNat ≤ decValue otp ∧
      decValue otp ≤ 10 ^ (1 : Int).toNat - 1) :=
  ⟨by decide, by decide, by decide, by decide, by decide,
    claim_C4_otp_format 1 0 0 "k" (fun _ => none)
      (by decide) (by decide) (by decide) (by decide) (by decide)⟩

/-- C5: for every key, `ValidateOTP key submitted` where `submitted` is the
empty string or has Go length different from the configured length `L`
returns `(false, InvalidOTPFormatError)` and leaves the cache state
unchanged; the result does not depend on the cache at all. -/
theorem claim_C5_format_rejection (L now : Int) (m : CacheMap)
    (key otp : String) (h : otp = "" ∨ (goLen otp : Int) ≠ L) :
    otpServiceInstance.ValidateOTP ⟨L⟩ m now key otp
      = some ((false, some ValidateError.errInvalidOTP), m) := by
  unfold otpServiceInstance.ValidateOTP
  split
  · rfl
  · rename_i hcon
    exact absurd h hcon

/-- Witness for C5 at `otp = ""`, `L = 6`, key `"k"`, empty cache. -/
theorem claim_C5_format_rejection_witness :
    (("" : String) = "" ∨ ((goLen "" : Nat) : Int) ≠ 6) ∧
    otpServiceInstance.ValidateOTP ⟨6⟩ (fun _ => none) 0 "k" ""
      = some ((false, some ValidateError.errInvalidOTP), fun _ => none) :=
  ⟨Or.inl rfl,
    claim_C5_format_rejection 6 0 (fun _ => none) "k" "" (Or.inl rfl)⟩

/-- C6: for every key holding a live cached OTP string `s` of the configured
length, `ValidateOTP key otp` with `otp` of the configured length but
different from `s` returns `(false, MismatchError)` and leaves the cache
unchanged, and a subsequent `ValidateOTP key s` with the correct value still
succeeds (deleting the entry only then). -/
theorem claim_C6_mismatch (L now exp : Int) (m : CacheMap)
    (key otp s : String) (hL : 1 ≤ L)
    (hentry : m key = some ⟨GoValue.goString s, exp⟩) (hlive : ¬ exp < now)
    (hlen : (goLen otp : Int) = L) (hslen : (goLen s : Int) = L)
    (hneq : s ≠ otp) :
    otpServiceInstance.ValidateOTP ⟨L⟩ m now key otp
      = some ((false, some (ValidateError.mismatch key)), m) ∧
    otpServiceInstance.ValidateOTP ⟨L⟩ m now key s
      = some ((true, none), CacheInstance.Delete m key) := by
  have hone : otp ≠ "" := by
    intro hempty
    subst hempty
    rw [show goLen "" = 0 from rfl] at hlen
    omega
  have hsone : s ≠ "" := by
    intro hempty
    subst hempty
    rw [show goLen "" = 0 from rfl] at hslen
    omega
  constructor
  · rw [otpServiceInstance.ValidateOTP_found_string L now exp m key otp s
      hone hlen hentry hlive]
    rw [if_neg hneq]
  · rw [otpServiceInstance.ValidateOTP_found_string L now exp m key s s
      hsone hslen hentry hlive]
    rw [if_pos rfl]

/-- Witness for C6: cache holds `"k" ↦ ("1", expiry 100)`, validated at
`now = 0` with the wrong value `"2"` and then the right value `"1"`
(`L = 1`). -/
theorem claim_C6_mismatch_witness :
    (1 : Int) ≤ 1 ∧
    (fun k => if k = "k" then some (⟨GoValue.goString "1", 100⟩ : CacheEntry)
      else none) "k" = some ⟨GoValue.goString "1", 100⟩ ∧
    ¬ (100 : Int) < 0 ∧
    ((goLen "2" : Nat) : Int) = 1 ∧ ((goLen "1" : Nat) : Int) = 1 ∧
    ("1" : String) ≠ "2" ∧
    (otpServiceInstance.ValidateOTP ⟨1⟩
        (fun k => if k = "k" then some ⟨GoValue.goString "1", 100⟩ else none)
        0 "k" "2"
      = some ((false, some (ValidateError.mismatch "k")),
          fun k => if k = "k" then some ⟨GoValue.goString "1", 100⟩ else none) ∧
    otpServiceInstance.ValidateOTP ⟨1⟩
        (fun k => if k = "k" then some ⟨GoValue.goString "1", 100⟩ else none)
        0 "k" "1"
      = some ((true, none),
          CacheInstance.Delete
            (fun k => if k = "k" then some ⟨GoValue.goString "1", 100⟩
              else none) "k")) :=
  ⟨by decide, by decide, by decide, by decide, by decide, by decide,
    claim_C6_mismatch 1 0 100
      (fun k => if k = "k" then some ⟨GoValue.goString "1", 100⟩ else none)
      "k" "2" "1" (by decide) (by decide) (by decide) (by decide) (by decide)
      (by decide)⟩

/-- C7 (counterexample to the claim as stated): `Set` with the blank
(whitespace-only) key `" "` does NOT fail — the code only rejects the key
that is exactly the empty string. -/
theorem claim_C7_counterexample :
    (CacheInstance.Set (fun _ => none) " " (GoValue.goString "x") 0).1
      = Except.ok () := by
  rfl

/-- C7 (amended): `Set key value expiry` fails with `EmptyKeyError` if and
only if the key is exactly the empty string (whitespace-only keys are
accepted), leaving the cache unchanged on failure; for every other key it
succeeds and unconditionally replaces any existing entry for that key with
the new value and expiry, leaving all other keys untouched. -/
theorem claim_C7_set_empty_key (m : CacheMap) (key : String) (v : GoValue)
    (exp : Int) :
    (key = "" →
      CacheInstance.Set m key v exp = (Except.error "key cannot be empty", m)) ∧
    (key ≠ "" →
      (CacheInstance.Set m key v exp).1 = Except.ok () ∧
      (CacheInstance.Set m key v exp).2 key = some ⟨v, exp⟩ ∧
      ∀ k, k ≠ key → (CacheInstance.Set m key v exp).2 k = m k) := by
  constructor
  · intro hk
    unfold CacheInstance.Set
    rw [if_pos hk]
  · intro hk
    rw [CacheInstance.Set_ok m key v exp hk]
    refine ⟨rfl, ?_, ?_⟩
    · show (if key = key then some ⟨v, exp⟩ else m key) = some ⟨v, exp⟩
      rw [if_pos rfl]
    · intro k hkk
      show (if k = key then some ⟨v, exp⟩ else m k) = m k
      rw [if_neg hkk]

/-- Witness for the amended C7 at the blank key `" "` over an empty cache:
the write succeeds, stores the entry under `" "`, and leaves the distinct
key `"other"` untouched. -/
theorem claim_C7_set_empty_key_witness :
    (" " : String) ≠ "" ∧
    (CacheInstance.Set (fun _ => none) " " (GoValue.goString "x") 0).1
      = Except.ok () ∧
    (CacheInstance.Set (fun _ => none) " " (GoValue.goString "x") 0).2 " "
      = some ⟨GoValue.goString "x", 0⟩ ∧
    (CacheInstance.Set (fun _ => none) " " (GoValue.goString "x") 0).2 "other"
      = (fun _ => none : CacheMap) "other" := by
  have h := (claim_C7_set_empty_key (fun _ => none) " "
    (GoValue.goString "x") 0).2 (by decide)
  exact ⟨by decide, h.1, h.2.1, h.2.2 "other" (by decide)⟩

/-- `Get` never changes the cache state (helper for C8). -/
theorem CacheInstance.Get_state (m : CacheMap) (now : Int) (key : String) :
    (CacheInstance.Get m now key).2 = m := by
  unfold CacheInstance.Get
  rcases hm : m key with _ | e
  · rfl
  · dsimp only
    split <;> rfl

/-- `Exists` never changes the cache state (helper for C8). -/
theorem CacheInstance.Exists_state (m : CacheMap) (now : Int) (key : String) :
    (CacheInstance.Exists m now key).2 = m := by
  unfold CacheInstance.Exists
  rcases hm : m key with _ | e <;> rfl

/-- C8: `Get` and `Exists` never mutate the cache state (also on a
lazily-expired entry: no eager delete on read), so repeated calls without
intervening writes — here a second call run on the state returned by the
first — give the same result. -/
theorem claim_C8_read_only (m : CacheMap) (now : Int) (k k' : String) :
    (CacheInstance.Get m now k).2 = m ∧
    (CacheInstance.Exists m now k).2 = m ∧
    (CacheInstance.Get ((CacheInstance.Get m now k').2) now k).1
      = (CacheInstance.Get m now k).1 ∧
    (CacheInstance.Exists ((CacheInstance.Exists m now k').2) now k).1
      = (CacheInstance.Exists m now k).1 ∧
    (CacheInstance.Exists ((CacheInstance.Get m now k').2) now k).1
      = (CacheInstance.Exists m now k).1 := by
  refine ⟨CacheInstance.Get_state m now k, CacheInstance.Exists_state m now k,
    ?_, ?_, ?_⟩
  · rw [CacheInstance.Get_state]
  · rw [CacheInstance.Exists_state]
  · rw [CacheInstance.Get_state]

/-- C9: for every non-empty key, on success `GenerateOTP` returns exactly
the string it stored in the cache under that key (the OTP is formatted twice
from the same integer with the same format, so returned and cached values
are equal). -/
theorem claim_C9_returned_equals_cached (L now n : Int) (key : String)
    (m : CacheMap) (hk : key ≠ "") :
    ∃ otp m₁,
      otpServiceInstance.GenerateOTP ⟨L⟩ m now n key = (Except.ok otp, m₁) ∧
      m₁ key = some ⟨GoValue.goString otp, now + 600⟩ := by
  refine ⟨goFormatInt L.toNat (wrap64 (n + genMin L)), _,
    otpServiceInstance.GenerateOTP_ok L now n key m hk, ?_⟩
  show (if key = key then _ else m key) = _
  rw [if_pos rfl]

/-- Witness for C9 at `L = 6`, `now = 0`, `n = 0`, key `"k"`, empty cache. -/
theorem claim_C9_returned_equals_cached_witness :
    ("k" : String) ≠ "" ∧
    (∃ otp m₁,
      otpServiceInstance.GenerateOTP ⟨6⟩ (fun _ => none) 0 0 "k"
        = (Except.ok otp, m₁) ∧
      m₁ "k" = some ⟨GoValue.goString otp, 0 + 600⟩) :=
  ⟨by decide,
    claim_C9_returned_equals_cached 6 0 0 "k" (fun _ => none) (by decide)⟩

/-- C10: under the precondition that every value in the cache is a Go string
(as is the case when only `GenerateOTP` writes to it), the unchecked type
assertion `cachedOTP.(string)` in `ValidateOTP` never panics: for every key
and submitted OTP, `ValidateOTP` returns normally with a `(bool, error)`
pair. -/
theorem claim_C10_no_panic (L now : Int) (m : CacheMap) (key otp : String)
    (hwt : CacheWellTyped m) :
    (otpServiceInstance.ValidateOTP ⟨L⟩ m now key otp).isSome = true := by
  unfold otpServiceInstance.ValidateOTP
  split
  · rfl
  · rcases hm : m key with _ | e
    · rw [CacheInstance.Get_missing m now key hm]
      rfl
    · by_cases hexp : e.Expiry < now
      · rw [CacheInstance.Get_expired m now key e hm hexp]
        rfl
      · obtain ⟨s, hs⟩ := hwt key e hm
        have hget : CacheInstance.Get m now key = ((GoValue.goString s, true), m) := by
          rw [CacheInstance.Get_found m now key e hm hexp, hs]
        rw [hget]
        by_cases hso : s = otp
        · subst hso
          simp [goTypeAssertString]
        · simp [goTypeAssertString, hso]

/-- Witness for C10 over the empty cache (vacuously well-typed), `L = 6`,
`now = 0`, key `"k"`, submitted OTP `"123456"`. -/
theorem claim_C10_no_panic_witness :
    CacheWellTyped (fun _ => none) ∧
    (otpServiceInstance.ValidateOTP ⟨6⟩ (fun _ => none) 0 "k" "123456").isSome
      = true :=
  ⟨fun _ _ h => Option.noConfusion h,
    claim_C10_no_panic 6 0 (fun _ => none) "k" "123456"
      (fun _ _ h => Option.noConfusion h)⟩
